import Mathlib

/-!
# Verification of `solana-snapshot-etl`

A shallow embedding of the core of the `solana-snapshot-etl` crate:
the snapshot loaders of `src/lib.rs`, the AppendVec record iterator,
the SQLite indexer of `src/bin/solana-snapshot-etl/sqlite.rs`, and the
program dumper of `src/bin/solana-snapshot-etl/programs.rs`, together
with theorems settling the specification claims about them.

Bytes are modelled as `Nat` (values < 256 in any real buffer); machine
integers as `Nat` with explicit bounds where overflow matters.
-/

namespace SnapshotEtl

/-- Error type mirroring `SnapshotError` of `src/lib.rs`. -/
inductive SnapshotError where
  | IOError
  | BincodeError
  | NoStatusCache
  | NoSnapshotManifest
  | UnexpectedAppendVec
  deriving DecidableEq, Repr

/-- Rust `u64::from_str` on a character list: an optional leading `+`,
then one or more ASCII digits, and the resulting value must fit in 64
bits. Returns `none` on any other input (empty list, other characters,
overflow). -/
def parseU64Chars (s : List Char) : Option Nat :=
  let cs := match s with
    | '+' :: rest => rest
    | cs => cs
  if cs.isEmpty then none
  else if cs.all Char.isDigit then
    let v := cs.foldl (fun a c => a * 10 + (c.toNat - 48)) 0
    if v < 2 ^ 64 then some v else none
  else none

/-- Rust `u64::from_str` on a string. -/
def parseU64 (s : String) : Option Nat := parseU64Chars s.data

/-- Split a character list at its first `.`: the part before and the part
after (which may itself contain further dots), or `none` when there is no
dot. This is Rust's `splitn(2, '.')` yielding two parts. -/
def splitAtDot : List Char → Option (List Char × List Char)
  | [] => none
  | c :: rest =>
    if c = '.' then some ([], rest)
    else match splitAtDot rest with
      | none => none
      | some (a, b) => some (c :: a, b)

/-- `parse_append_vec_name` of `src/lib.rs`: split the file name at the
first `.` into exactly two parts (`splitn(2, '.')`), parse each part as a
`u64`, and succeed only when both parse. A name without a dot fails
because the missing second part parses as the empty string, which fails. -/
def parse_append_vec_name (name : String) : Option (Nat × Nat) :=
  match splitAtDot name.data with
  | none => none
  | some (slotCs, idCs) =>
    match parseU64Chars slotCs, parseU64Chars idCs with
    | some slot, some id => some (slot, id)
    | _, _ => none

/-- One component of a `std::path::Path`, as produced by `Path::components`. -/
inductive Component where
  | rootDir
  | curDir
  | parentDir
  | normal (s : String)
  deriving DecidableEq, Repr

/-- A path, as the sequence of its components. -/
abbrev EntryPath := List Component

/-- `ArchiveSnapshotLoader::is_snapshot_manifest_file` of `src/lib.rs`:
the path must be exactly `snapshots/<a>/<b>` where `<a>` parses as a `u64`
and the component strings `<a>` and `<b>` are equal. -/
def is_snapshot_manifest_file (path : EntryPath) : Bool :=
  match path with
  | [Component.normal c₀, Component.normal s₁, Component.normal s₂] =>
    c₀ = "snapshots" && (parseU64 s₁).isSome && s₁ = s₂
  | _ => false

/-- `ArchiveSnapshotLoader::is_appendvec_file` of `src/lib.rs`:
the path must be exactly `accounts/<name>` where `<name>` parses as a
`(slot, id)` AppendVec file name. -/
def is_appendvec_file (path : EntryPath) : Bool :=
  match path with
  | [Component.normal c₀, Component.normal name] =>
    c₀ = "accounts" && (parse_append_vec_name name).isSome
  | _ => false

/-- The manifest-scan loop of `ArchiveSnapshotLoader::open_inner`
(`src/lib.rs`): walk the tar entries in order; return the first manifest
entry; fail with `UnexpectedAppendVec` if an AppendVec entry is seen
first; fail with `NoSnapshotManifest` if the entries run out. -/
def scan_for_manifest : List EntryPath → Except SnapshotError EntryPath
  | [] => .error .NoSnapshotManifest
  | p :: rest =>
    if is_snapshot_manifest_file p then .ok p
    else if is_appendvec_file p then .error .UnexpectedAppendVec
    else scan_for_manifest rest

/-! ## AppendVec parser

The `append_vec` module is declared by `src/lib.rs` (`pub mod append_vec`)
but its file is not part of the sources at hand, so the parser is modelled
from the specification (§4.1, §6 of the spec). -/

/-- `ceil(n / 8) * 8`: the next 8-byte-aligned offset at or after `n`. -/
def alignUp (n : Nat) : Nat := ((n + 7) / 8) * 8

/-- The sub-list `buf[off .. off+len)`. -/
def slice (buf : List Nat) (off len : Nat) : List Nat := (buf.drop off).take len

/-- Little-endian value of the `len` bytes `buf[off .. off+len)`. -/
def readLE (buf : List Nat) (off len : Nat) : Nat :=
  (slice buf off len).reverse.foldl (fun a b => a * 256 + b) 0

/-- `StoredMeta` header of an account record. -/
structure StoredMeta where
  write_version : Nat
  pubkey : List Nat
  data_len : Nat
  deriving DecidableEq, Repr

/-- `AccountMeta` header of an account record. -/
structure AccountMeta where
  lamports : Nat
  rent_epoch : Nat
  owner : List Nat
  executable : Bool
  deriving DecidableEq, Repr

/-- A parsed account record (`StoredAccountMeta` in the source): views of
the four sub-fields of the record starting at some offset. -/
structure StoredAccountMeta where
  meta : StoredMeta
  account_meta : AccountMeta
  hash : List Nat
  data : List Nat
  deriving DecidableEq, Repr

/-- An AppendVec: the backing buffer, already truncated to the manifest's
`accounts_current_len` bytes. -/
structure AppendVec where
  buf : List Nat
  deriving DecidableEq, Repr

/-- Modelled from the spec: `AppendVec::new_from_file` (the `append_vec`
module is missing from the sources). Opens the file, asserts
`file_len >= current_len`, and keeps only the first `current_len` bytes of
the file; any trailing bytes are ignored. -/
def AppendVec.new_from_file (file : List Nat) (current_len : Nat) :
    Except SnapshotError AppendVec :=
  if current_len ≤ file.length then .ok ⟨file.take current_len⟩
  else .error .IOError

/-- Modelled from the spec: `AppendVec::new_from_reader` (the `append_vec`
module is missing from the sources). Reads exactly `current_len` bytes
from the stream into an owned buffer. -/
def AppendVec.new_from_reader (stream : List Nat) (current_len : Nat) :
    Except SnapshotError AppendVec :=
  if current_len ≤ stream.length then .ok ⟨stream.take current_len⟩
  else .error .IOError

/-- Modelled from the spec: `AppendVec::get_account` (the `append_vec`
module is missing from the sources). Bounds-checks the fixed 136-byte
header (`StoredMeta` at +0, `AccountMeta` at +48, hash at +104) and then
`data_len` bytes of payload; returns the record view together with the
next 8-byte-aligned offset, or `none` if no full record fits. -/
def AppendVec.get_account (av : AppendVec) (offset : Nat) :
    Option (StoredAccountMeta × Nat) :=
  if offset + 136 > av.buf.length then none
  else
    if offset + 136 + readLE av.buf (offset + 8) 8 > av.buf.length then none
    else
      some ({ meta := { write_version := readLE av.buf offset 8
                        pubkey := slice av.buf (offset + 16) 32
                        data_len := readLE av.buf (offset + 8) 8 }
              account_meta := { lamports := readLE av.buf (offset + 48) 8
                                rent_epoch := readLE av.buf (offset + 56) 8
                                owner := slice av.buf (offset + 64) 32
                                executable := readLE av.buf (offset + 96) 1 ≠ 0 }
              hash := slice av.buf (offset + 104) 32
              data := slice av.buf (offset + 136) (readLE av.buf (offset + 8) 8) },
            alignUp (offset + 136 + readLE av.buf (offset + 8) 8))

theorem le_alignUp (n : Nat) : n ≤ alignUp n := by
  unfold alignUp
  have h1 := Nat.div_add_mod (n + 7) 8
  have h2 : (n + 7) % 8 < 8 := Nat.mod_lt _ (by norm_num)
  omega

theorem get_account_bounds {av : AppendVec} {offset : Nat}
    {p : StoredAccountMeta × Nat} (h : av.get_account offset = some p) :
    offset + 136 ≤ av.buf.length ∧ offset < p.2 := by
  unfold AppendVec.get_account at h
  split at h
  · exact absurd h (by simp)
  · split at h
    · exact absurd h (by simp)
    · rename_i h1 h2
      cases h
      refine ⟨by omega, ?_⟩
      have := le_alignUp (offset + 136 + readLE av.buf (offset + 8) 8)
      simp only
      omega

/-- The offset-collection loop inside `append_vec_iter` (`src/lib.rs`):
starting at `offset`, repeatedly call `get_account`, recording each
offset, until it returns `none`. -/
def collect_offsets (av : AppendVec) (offset : Nat) : List Nat :=
  match h : av.get_account offset with
  | none => []
  | some (_, next) => offset :: collect_offsets av next
termination_by av.buf.length + 8 - offset
decreasing_by
  have := get_account_bounds h
  omega

/-- A handle yielded by `append_vec_iter`: the AppendVec together with the
record's offset. -/
structure StoredAccountMetaHandle where
  append_vec : AppendVec
  offset : Nat

/-- `StoredAccountMetaHandle::access` (`src/lib.rs`): re-parse the record
at the stored offset. -/
def StoredAccountMetaHandle.access (h : StoredAccountMetaHandle) :
    Option StoredAccountMeta :=
  (h.append_vec.get_account h.offset).map Prod.fst

/-- `append_vec_iter` (`src/lib.rs`): eagerly collect all record offsets
starting from 0, then yield one handle per offset. -/
def append_vec_iter (av : AppendVec) : List StoredAccountMetaHandle :=
  (collect_offsets av 0).map (fun o => ⟨av, o⟩)

/-- The reference sequence of the spec (§4.1 `iter()`): starting at
`offset`, repeatedly call `get_account` and yield each record until it
returns `none`. -/
def get_account_seq (av : AppendVec) (offset : Nat) : List StoredAccountMeta :=
  match h : av.get_account offset with
  | none => []
  | some (acc, next) => acc :: get_account_seq av next
termination_by av.buf.length + 8 - offset
decreasing_by
  have := get_account_bounds h
  omega


theorem collect_map_access (av : AppendVec) :
    ∀ offset : Nat,
      (collect_offsets av offset).map
          (fun o => (av.get_account o).map Prod.fst) =
        (get_account_seq av offset).map some := by
  intro offset
  induction offset using collect_offsets.induct av with
  | case1 x h =>
    rw [collect_offsets, get_account_seq]
    split
    · rfl
    · rename_i heq
      rw [h] at heq
      exact absurd heq (by simp)
  | case2 x acc next h ih =>
    rw [collect_offsets, get_account_seq]
    split
    · rename_i heq
      rw [h] at heq
      exact absurd heq (by simp)
    · rename_i a n heq
      rw [h] at heq
      cases heq
      simp [h, ih]

/-- C6: the sequence of account records yielded by `append_vec_iter`
(eagerly collected offsets, one handle per offset, each accessed through
`get_account`) equals, element for element and in order, the sequence
obtained by starting at offset 0 and repeatedly calling `get_account`
until it returns `none`. -/
theorem c6_append_vec_iter_eq_get_account_seq (av : AppendVec) :
    (append_vec_iter av).map StoredAccountMetaHandle.access =
      (get_account_seq av 0).map some := by
  rw [append_vec_iter, List.map_map]
  exact collect_map_access av 0

/-! ## Unpacked snapshot loader (`src/lib.rs`) -/

/-- `SerializableAccountStorageEntry` of the manifest: the AppendVec id
and the authoritative byte length to read from the file. -/
structure StorageEntry where
  id : Nat
  accounts_current_len : Nat
  deriving DecidableEq, Repr

/-- The `slot -> list of StorageEntry` map of `AccountsDbFields`,
modelled as an association list with at most one entry per slot. -/
def AccountsDbFields := List (Nat × List StorageEntry)

/-- The `HashMap::get` of `self.accounts_db_fields.0.get(&slot)`. -/
def lookup_slot (fields : AccountsDbFields) (slot : Nat) :
    Option (List StorageEntry) :=
  (fields.find? (fun e => e.1 = slot)).map (fun e => e.2)

/-- The storage-entry lookup inside `UnpackedSnapshotLoader::open_append_vec`:
`known_vecs.iter().find(|entry| entry.id == id)` over the slot's list
(empty if the slot is absent). -/
def find_known_vec (fields : AccountsDbFields) (slot id : Nat) :
    Option StorageEntry :=
  ((lookup_slot fields slot).getD []).find? (fun e => e.id = id)

/-- `UnpackedSnapshotLoader::open_append_vec` (`src/lib.rs`): look up the
`(slot, id)` pair in the manifest map; with no matching entry fail with
`UnexpectedAppendVec`, otherwise open the file as an AppendVec of exactly
`accounts_current_len` bytes. -/
def open_append_vec (fields : AccountsDbFields) (slot id : Nat)
    (file : List Nat) : Except SnapshotError AppendVec :=
  match find_known_vec fields slot id with
  | none => .error .UnexpectedAppendVec
  | some known_vec => AppendVec.new_from_file file known_vec.accounts_current_len

/-- C1: for a file `accounts/<slot>.<id>`, if the manifest map contains no
StorageEntry matching `(slot, id)` then `open_append_vec` fails with
`UnexpectedAppendVec`; if a matching entry exists (and the file is at
least that long), the AppendVec is opened with exactly that entry's
`accounts_current_len` bytes — the buffer is the `accounts_current_len`-
byte prefix of the file, trailing bytes ignored. -/
theorem c1_open_append_vec_manifest_lookup (fields : AccountsDbFields)
    (slot id : Nat) (file : List Nat) :
    (find_known_vec fields slot id = none →
      open_append_vec fields slot id file = .error .UnexpectedAppendVec) ∧
    (∀ e, find_known_vec fields slot id = some e →
      e.accounts_current_len ≤ file.length →
      open_append_vec fields slot id file =
        .ok ⟨file.take e.accounts_current_len⟩ ∧
      (file.take e.accounts_current_len).length = e.accounts_current_len) := by
  constructor
  · intro h
    rw [open_append_vec, h]
  · intro e he hlen
    rw [open_append_vec, he]
    dsimp only
    unfold AppendVec.new_from_file
    rw [if_pos hlen]
    exact ⟨rfl, by simp [hlen]⟩

/-- Closed witness for the C1 theorem: a manifest with slot 100 holding
only id 7 (current length 16) rejects file `100.9` and accepts file
`100.7`, truncating the 20-byte file to its 16-byte prefix. -/
theorem c1_open_append_vec_manifest_lookup_witness :
    open_append_vec [(100, [⟨7, 16⟩])] 100 9 (List.replicate 20 0) =
      .error .UnexpectedAppendVec ∧
    open_append_vec [(100, [⟨7, 16⟩])] 100 7 (List.replicate 20 0) =
      .ok ⟨(List.replicate 20 0).take 16⟩ ∧
    ((List.replicate 20 (0 : Nat)).take 16).length = 16 :=
  ⟨(c1_open_append_vec_manifest_lookup [(100, [⟨7, 16⟩])] 100 9
      (List.replicate 20 0)).1 (by decide),
   ((c1_open_append_vec_manifest_lookup [(100, [⟨7, 16⟩])] 100 7
      (List.replicate 20 0)).2 ⟨7, 16⟩ (by decide) (by decide)).1,
   ((c1_open_append_vec_manifest_lookup [(100, [⟨7, 16⟩])] 100 7
      (List.replicate 20 0)).2 ⟨7, 16⟩ (by decide) (by decide)).2⟩

/-! ## Archive manifest scan (`src/lib.rs`) -/

theorem manifest_not_appendvec {p : EntryPath}
    (h : is_snapshot_manifest_file p = true) : is_appendvec_file p = false := by
  unfold is_snapshot_manifest_file at h
  split at h
  · rfl
  · exact absurd h (by simp)

/-- C2: the archive loader scan yields `UnexpectedAppendVec` exactly when
the first tar entry classified as manifest-or-AppendVec is an AppendVec;
otherwise it returns the first manifest entry; and it yields
`NoSnapshotManifest` when no entry is classified at all. -/
theorem c2_archive_manifest_scan (entries : List EntryPath) :
    (scan_for_manifest entries = .error .UnexpectedAppendVec ↔
      ∃ p, entries.find?
          (fun q => is_snapshot_manifest_file q || is_appendvec_file q) =
            some p ∧ is_appendvec_file p = true) ∧
    (∀ p, entries.find?
        (fun q => is_snapshot_manifest_file q || is_appendvec_file q) =
          some p → is_snapshot_manifest_file p = true →
      scan_for_manifest entries = .ok p) ∧
    (entries.find?
        (fun q => is_snapshot_manifest_file q || is_appendvec_file q) =
          none →
      scan_for_manifest entries = .error .NoSnapshotManifest) := by
  induction entries with
  | nil =>
    refine ⟨by simp [scan_for_manifest], by simp, fun _ => rfl⟩
  | cons p rest ih =>
    by_cases hm : is_snapshot_manifest_file p = true
    · have ha : is_appendvec_file p = false := manifest_not_appendvec hm
      have hfind : (p :: rest).find?
          (fun q => is_snapshot_manifest_file q || is_appendvec_file q) =
            some p := by
        rw [List.find?_cons_of_pos]
        simp [hm]
      refine ⟨?_, ?_, ?_⟩
      · rw [hfind]
        simp only [scan_for_manifest, hm, if_true]
        constructor
        · intro hcon
          exact absurd hcon (by simp)
        · rintro ⟨q, hq, haq⟩
          obtain rfl : p = q := Option.some.inj hq
          rw [ha] at haq
          exact absurd haq (by simp)
      · intro q hq _
        rw [hfind] at hq
        obtain rfl : p = q := Option.some.inj hq
        simp [scan_for_manifest, hm]
      · intro hnone
        rw [hfind] at hnone
        exact absurd hnone (by simp)
    · by_cases ha : is_appendvec_file p = true
      · have hfind : (p :: rest).find?
            (fun q => is_snapshot_manifest_file q || is_appendvec_file q) =
              some p := by
          rw [List.find?_cons_of_pos]
          simp [ha]
        refine ⟨?_, ?_, ?_⟩
        · rw [hfind]
          simp only [scan_for_manifest, hm, ha, if_true, if_false]
          exact ⟨fun _ => ⟨p, rfl, ha⟩,
                 fun _ => by simp [hm, ha, scan_for_manifest]⟩
        · intro q hq hqm
          rw [hfind] at hq
          obtain rfl : p = q := Option.some.inj hq
          exact absurd hqm hm
        · intro hnone
          rw [hfind] at hnone
          exact absurd hnone (by simp)
      · have hfind : (p :: rest).find?
            (fun q => is_snapshot_manifest_file q || is_appendvec_file q) =
              rest.find?
                (fun q => is_snapshot_manifest_file q || is_appendvec_file q) := by
          rw [List.find?_cons_of_neg]
          simp [hm, ha]
        have hscan : scan_for_manifest (p :: rest) = scan_for_manifest rest := by
          simp [scan_for_manifest, hm, ha]
        rw [hfind, hscan]
        exact ih

/-- Closed witness for the C2 theorem: on the entry list
`[accounts/100.7, snapshots/100/100]` the scan stops with
`UnexpectedAppendVec`, because the first classified entry is an
AppendVec. -/
theorem c2_archive_manifest_scan_witness :
    scan_for_manifest
        [[Component.normal "accounts", Component.normal "100.7"],
         [Component.normal "snapshots", Component.normal "100",
          Component.normal "100"]] =
      .error .UnexpectedAppendVec :=
  (c2_archive_manifest_scan
      [[Component.normal "accounts", Component.normal "100.7"],
       [Component.normal "snapshots", Component.normal "100",
        Component.normal "100"]]).1.mpr
    ⟨[Component.normal "accounts", Component.normal "100.7"],
     by decide, by decide⟩


/-! ## Manifest-file classification (C7) -/

/-- The spec's characterization of a manifest path (§4.4): exactly the
three components `snapshots/<N1>/<N2>`, where `<N1>` parses as a decimal
`u64` and the two components denote identical `u64` values. -/
def spec_manifest_path (path : EntryPath) : Prop :=
  ∃ s₁ s₂ n, path = [Component.normal "snapshots", Component.normal s₁,
      Component.normal s₂] ∧
    parseU64 s₁ = some n ∧ parseU64 s₂ = some n

/-- C7 counterexample: on the path `snapshots/7/07` the spec predicate
holds (both components denote the `u64` value 7) but
`is_snapshot_manifest_file` returns `false`, because the source compares
the two component strings for equality rather than their parsed values. -/
theorem c7_counterexample_string_inequality :
    is_snapshot_manifest_file
        [Component.normal "snapshots", Component.normal "7",
         Component.normal "07"] = false ∧
      spec_manifest_path
        [Component.normal "snapshots", Component.normal "7",
         Component.normal "07"] :=
  ⟨by decide, ⟨"7", "07", 7, rfl, by decide, by decide⟩⟩

/-- C7 (amended): `is_snapshot_manifest_file` returns `true` exactly for
paths of three components `snapshots/<N1>/<N2>` with no further
components, where `<N1>` parses as a decimal `u64` and `<N1>` and `<N2>`
are identical strings. -/
theorem c7_is_snapshot_manifest_file_characterization (path : EntryPath) :
    is_snapshot_manifest_file path = true ↔
      ∃ s₁ s₂, path = [Component.normal "snapshots", Component.normal s₁,
          Component.normal s₂] ∧
        (parseU64 s₁).isSome ∧ s₁ = s₂ := by
  unfold is_snapshot_manifest_file
  constructor
  · intro h
    split at h
    · rename_i c₀ s₁ s₂
      simp only [Bool.and_eq_true, decide_eq_true_eq] at h
      obtain ⟨⟨hc, hp⟩, hs⟩ := h
      exact ⟨s₁, s₂, by rw [hc], hp, hs⟩
    · exact absurd h (by simp)
  · rintro ⟨s₁, s₂, rfl, hp, rfl⟩
    simp [hp]


/-- Closed witness for the amended C7 theorem: the path
`snapshots/100/100` is classified as a manifest. -/
theorem c7_is_snapshot_manifest_file_characterization_witness :
    is_snapshot_manifest_file
        [Component.normal "snapshots", Component.normal "100",
         Component.normal "100"] = true :=
  (c7_is_snapshot_manifest_file_characterization
      [Component.normal "snapshots", Component.normal "100",
       Component.normal "100"]).mpr ⟨"100", "100", rfl, by decide, rfl⟩

/-! ## Program dumper (`src/bin/solana-snapshot-etl/programs.rs`) -/

/-- A 32-byte program/account address. -/
abbrev Pubkey := List Nat

/-- `solana_program::bpf_loader::ID`
(`BPFLoader2111111111111111111111111111111111`). -/
def bpf_loader_id : Pubkey :=
  [2, 168, 246, 145, 78, 136, 161, 110, 57, 90, 225, 40, 148, 143, 250, 105,
   86, 147, 55, 104, 24, 221, 71, 67, 82, 33, 243, 198, 0, 0, 0, 0]

/-- `solana_program::bpf_loader_deprecated::ID`
(`BPFLoader1111111111111111111111111111111111`). -/
def bpf_loader_deprecated_id : Pubkey :=
  [2, 168, 246, 145, 78, 136, 161, 107, 189, 35, 149, 133, 95, 100, 4, 217,
   180, 244, 86, 183, 130, 27, 176, 20, 87, 73, 66, 140, 0, 0, 0, 0]

/-- `solana_program::bpf_loader_upgradeable::ID`
(`BPFLoaderUpgradeab1e11111111111111111111111`). -/
def bpf_loader_upgradeable_id : Pubkey :=
  [2, 168, 246, 145, 78, 136, 161, 176, 226, 16, 21, 62, 247, 99, 174, 43,
   0, 194, 185, 61, 22, 193, 36, 210, 192, 83, 122, 16, 4, 128, 0, 0]

/-- `spl_token::ID` (`TokenkegQfeZyiNwAJbNbGKPFXCWuBvf9Ss623VQ5DA`). -/
def spl_token_id : Pubkey :=
  [6, 221, 246, 225, 215, 101, 161, 147, 217, 203, 225, 70, 206, 235, 121,
   172, 28, 180, 133, 237, 95, 91, 55, 145, 58, 140, 245, 133, 126, 255, 0,
   169]

/-- `mpl_metadata::ID` (`metaqbxxUerdq28cj1RbAWkYQm3ybzjb6a8bt518x1s`). -/
def mpl_metadata_id : Pubkey :=
  [11, 112, 101, 177, 227, 209, 124, 69, 56, 157, 82, 127, 107, 4, 195, 205,
   88, 184, 108, 115, 26, 160, 253, 181, 73, 182, 209, 188, 3, 248, 41, 70]

/-- Take exactly `n` bytes off the front of a stream, or fail. -/
def takeN (bs : List Nat) (n : Nat) : Option (List Nat × List Nat) :=
  if n ≤ bs.length then some (bs.take n, bs.drop n) else none

/-- Little-endian value of a byte list. -/
def leValue (bytes : List Nat) : Nat :=
  bytes.reverse.foldl (fun a b => a * 256 + b) 0

/-- Bincode (fixint) `Option<Pubkey>`: a one-byte tag `0` (`None`) or `1`
(`Some`) followed by 32 bytes; any other tag is an error. -/
def bincode_option_pubkey (bs : List Nat) :
    Option (Option Pubkey × List Nat) :=
  match bs with
  | [] => none
  | t :: rest =>
    if t = 0 then some (none, rest)
    else if t = 1 then (takeN rest 32).map (fun p => (some p.1, p.2))
    else none

/-- `solana_program::bpf_loader_upgradeable::UpgradeableLoaderState`. -/
inductive UpgradeableLoaderState where
  | uninitialized
  | buffer (authority_address : Option Pubkey)
  | program (programdata_address : Pubkey)
  | programData (slot : Nat) (upgrade_authority_address : Option Pubkey)
  deriving DecidableEq, Repr

/-- Bincode (fixint, little-endian, trailing bytes allowed) deserialization
of `UpgradeableLoaderState`, as performed by
`ProgramDumper::insert_account`: a `u32` variant tag, then the variant's
fields; `ProgramData` is tag 3 followed by a `u64` slot and an
`Option<Pubkey>` upgrade authority. -/
def deserialize_upgradeable_loader_state (data : List Nat) :
    Option UpgradeableLoaderState :=
  match takeN data 4 with
  | none => none
  | some (tagBytes, rest) =>
    match leValue tagBytes with
    | 0 => some .uninitialized
    | 1 => (bincode_option_pubkey rest).map (fun p => .buffer p.1)
    | 2 => (takeN rest 32).map (fun p => .program p.1)
    | 3 =>
      match takeN rest 8 with
      | none => none
      | some (slotBytes, rest2) =>
        (bincode_option_pubkey rest2).map
          (fun p => .programData (leValue slotBytes) p.1)
    | _ => none

/-- Outcome of one `ProgramDumper::insert_account` call: a normal return
carrying the tar entry written (if any), a propagated bincode error, or a
panic (the out-of-bounds slice `&account.data[45..]`). An entry `(a, d)`
stands for a USTAR tar entry named `<a>.so` with mode `0o644` holding the
bytes `d`. -/
inductive DumpResult where
  | ok (entry : Option (Pubkey × List Nat))
  | error
  | panic
  deriving DecidableEq, Repr

/-- `ProgramDumper::insert_account` (`programs.rs`): for the two
non-upgradeable BPF loaders, write the full account data when the account
is executable; for the upgradeable loader, bincode-decode the account and
write `account.data[45..]` when the state is `ProgramData` (Rust slicing
panics when `data.len() < 45`); all other accounts write nothing. -/
def ProgramDumper.insert_account (account : StoredAccountMeta) : DumpResult :=
  if account.account_meta.owner = bpf_loader_deprecated_id ∨
      account.account_meta.owner = bpf_loader_id then
    if account.account_meta.executable then
      .ok (some (account.meta.pubkey, account.data))
    else .ok none
  else if account.account_meta.owner = bpf_loader_upgradeable_id then
    match deserialize_upgradeable_loader_state account.data with
    | none => .error
    | some (.programData _ _) =>
      if 45 ≤ account.data.length then
        .ok (some (account.meta.pubkey, account.data.drop 45))
      else .panic
    | some _ => .ok none
  else .ok none


/-- C5: `insert_account` writes a `<pubkey>.so` entry with the full data
for executable accounts of the two non-upgradeable BPF loaders; writes a
`<pubkey>.so` entry with `account.data[45..]` for upgradeable-loader
accounts whose data decodes to `ProgramData` (when the slice is in
bounds); and writes no entry for every other account. -/
theorem c5_program_dumper_entries (account : StoredAccountMeta) :
    ((account.account_meta.owner = bpf_loader_id ∨
        account.account_meta.owner = bpf_loader_deprecated_id) →
      account.account_meta.executable = true →
      ProgramDumper.insert_account account =
        .ok (some (account.meta.pubkey, account.data))) ∧
    ((account.account_meta.owner = bpf_loader_id ∨
        account.account_meta.owner = bpf_loader_deprecated_id) →
      account.account_meta.executable = false →
      ProgramDumper.insert_account account = .ok none) ∧
    (account.account_meta.owner = bpf_loader_upgradeable_id →
      ∀ s a, deserialize_upgradeable_loader_state account.data =
          some (.programData s a) →
        45 ≤ account.data.length →
        ProgramDumper.insert_account account =
          .ok (some (account.meta.pubkey, account.data.drop 45))) ∧
    (account.account_meta.owner = bpf_loader_upgradeable_id →
      ∀ st, deserialize_upgradeable_loader_state account.data = some st →
        (∀ s a, st ≠ .programData s a) →
        ProgramDumper.insert_account account = .ok none) ∧
    (account.account_meta.owner = bpf_loader_upgradeable_id →
      deserialize_upgradeable_loader_state account.data = none →
      ProgramDumper.insert_account account = .error) ∧
    (account.account_meta.owner ≠ bpf_loader_id →
      account.account_meta.owner ≠ bpf_loader_deprecated_id →
      account.account_meta.owner ≠ bpf_loader_upgradeable_id →
      ProgramDumper.insert_account account = .ok none) := by
  refine ⟨?_, ?_, ?_, ?_, ?_, ?_⟩
  · rintro (h | h) he <;>
      simp [ProgramDumper.insert_account, h, he]
  · rintro (h | h) he <;>
      simp [ProgramDumper.insert_account, h, he]
  · intro h s a hd hl
    have h1 : ¬(account.account_meta.owner = bpf_loader_deprecated_id ∨
        account.account_meta.owner = bpf_loader_id) := by
      rw [h]; decide
    rw [ProgramDumper.insert_account, if_neg h1, if_pos h, hd]
    exact if_pos hl
  · intro h st hd hne
    have h1 : ¬(account.account_meta.owner = bpf_loader_deprecated_id ∨
        account.account_meta.owner = bpf_loader_id) := by
      rw [h]; decide
    rw [ProgramDumper.insert_account, if_neg h1, if_pos h, hd]
    cases st with
    | uninitialized => rfl
    | buffer a => rfl
    | program a => rfl
    | programData s a => exact absurd rfl (hne s a)
  · intro h hd
    have h1 : ¬(account.account_meta.owner = bpf_loader_deprecated_id ∨
        account.account_meta.owner = bpf_loader_id) := by
      rw [h]; decide
    rw [ProgramDumper.insert_account, if_neg h1, if_pos h, hd]
  · intro h1 h2 h3
    rw [ProgramDumper.insert_account, if_neg (by tauto), if_neg h3]

/-- Closed witness for C5: an executable `bpf_loader` account with data
`[9, 9]` produces the entry `(pubkey, [9, 9])`, and an upgradeable-loader
account whose data is a 45-byte `ProgramData` header followed by 8 bytes
`0x90` produces the entry `(pubkey, [0x90; 8])`. -/
theorem c5_program_dumper_entries_witness :
    ProgramDumper.insert_account
        { meta := { write_version := 0, pubkey := List.replicate 32 1,
                    data_len := 2 }
          account_meta := { lamports := 5, rent_epoch := 0,
                            owner := bpf_loader_id, executable := true }
          hash := List.replicate 32 0
          data := [9, 9] } =
      .ok (some (List.replicate 32 1, [9, 9])) ∧
    ProgramDumper.insert_account
        { meta := { write_version := 0, pubkey := List.replicate 32 2,
                    data_len := 53 }
          account_meta := { lamports := 5, rent_epoch := 0,
                            owner := bpf_loader_upgradeable_id,
                            executable := false }
          hash := List.replicate 32 0
          data := [3, 0, 0, 0] ++ List.replicate 8 0 ++ [1] ++
            List.replicate 32 7 ++ List.replicate 8 144 } =
      .ok (some (List.replicate 32 2, List.replicate 8 144)) := by
  constructor
  · exact (c5_program_dumper_entries _).1 (Or.inl rfl) rfl
  · have := (c5_program_dumper_entries
        { meta := { write_version := 0, pubkey := List.replicate 32 2,
                    data_len := 53 }
          account_meta := { lamports := 5, rent_epoch := 0,
                            owner := bpf_loader_upgradeable_id,
                            executable := false }
          hash := List.replicate 32 0
          data := [3, 0, 0, 0] ++ List.replicate 8 0 ++ [1] ++
            List.replicate 32 7 ++ List.replicate 8 144 }).2.2.1 rfl 0
        (some (List.replicate 32 7)) (by decide) (by decide)
    rw [this]
    decide

/-- C9: for an upgradeable-loader account whose data decodes to the
`ProgramData` variant, `insert_account` evaluates `account.data[45..]`,
which panics exactly when `data.len() < 45` (instead of returning an
error value). -/
theorem c9_programdata_slice_panics (account : StoredAccountMeta)
    (h : account.account_meta.owner = bpf_loader_upgradeable_id)
    (s : Nat) (a : Option Pubkey)
    (hd : deserialize_upgradeable_loader_state account.data =
      some (.programData s a)) :
    ProgramDumper.insert_account account = .panic ↔
      account.data.length < 45 := by
  have h1 : ¬(account.account_meta.owner = bpf_loader_deprecated_id ∨
      account.account_meta.owner = bpf_loader_id) := by
    rw [h]; decide
  rw [ProgramDumper.insert_account, if_neg h1, if_pos h, hd]
  by_cases hl : 45 ≤ account.data.length
  · rw [if_pos hl]
    constructor
    · intro hcon
      exact absurd hcon (by simp)
    · omega
  · rw [if_neg hl]
    exact ⟨fun _ => by omega, fun _ => rfl⟩

/-- Closed witness for C9: a 13-byte account (`ProgramData` tag, slot 0,
no upgrade authority) owned by the upgradeable loader makes
`insert_account` panic. -/
theorem c9_programdata_slice_panics_witness :
    ProgramDumper.insert_account
        { meta := { write_version := 0, pubkey := List.replicate 32 3,
                    data_len := 13 }
          account_meta := { lamports := 1, rent_epoch := 0,
                            owner := bpf_loader_upgradeable_id,
                            executable := false }
          hash := List.replicate 32 0
          data := [3, 0, 0, 0, 0, 0, 0, 0, 0, 0, 0, 0, 0] } =
      .panic :=
  (c9_programdata_slice_panics _ rfl 0 none (by decide)).mpr (by decide)


/-! ## Progress counters (`sqlite.rs`) -/

/-- A `ProgressCounter`: the atomic counter, the progress bar's current
position, and the log of positions published to the progress sink
(`set_position` calls), in order. -/
structure ProgressCounter where
  counter : Nat
  position : Nat
  published : List Nat
  deriving DecidableEq, Repr

/-- A fresh counter over a new spinner progress bar. -/
def ProgressCounter.new : ProgressCounter :=
  { counter := 0, position := 0, published := [] }

/-- `ProgressCounter::get`. -/
def ProgressCounter.get (c : ProgressCounter) : Nat := c.counter

/-- `ProgressCounter::inc` (`sqlite.rs`): `fetch_add(1)` returns the old
count; when the old count is divisible by 1024 the progress bar position
is set to that old count. -/
def ProgressCounter.inc (c : ProgressCounter) : ProgressCounter :=
  let count := c.counter
  let c' : ProgressCounter := { c with counter := c.counter + 1 }
  if count % 1024 = 0 then
    { c' with position := count, published := c'.published ++ [count] }
  else c'

/-- C8 counterexample: starting from a fresh counter, one `inc` call
publishes position 0 while the counter's current count is 1 — the
published position is not the counter's current count, because
`fetch_add` returns the value before the increment. -/
theorem c8_counterexample_publishes_old_count :
    (ProgressCounter.new.inc).counter = 1 ∧
      (ProgressCounter.new.inc).published = [0] ∧ (0 : Nat) ≠ 1 := by
  decide

/-- C8 (amended): every `inc` call increases the counter by one, and the
position is published to the progress sink on every 1024th increment
(whenever the pre-increment count is divisible by 1024), the published
position being the counter's value just before the increment — one less
than its current count. -/
theorem c8_progress_counter_inc (c : ProgressCounter) :
    (c.inc).counter = c.counter + 1 ∧
    (c.counter % 1024 = 0 →
      (c.inc).published = c.published ++ [c.counter] ∧
      (c.inc).position = c.counter) ∧
    (c.counter % 1024 ≠ 0 →
      (c.inc).published = c.published ∧ (c.inc).position = c.position) := by
  unfold ProgressCounter.inc
  by_cases h : c.counter % 1024 = 0 <;> simp [h]

/-- Closed witness for the C8 theorem at a counter holding 5: the count
becomes 6 and nothing is published. -/
theorem c8_progress_counter_inc_witness :
    (ProgressCounter.inc
        { counter := 5, position := 0, published := [0] }).counter = 6 ∧
    (ProgressCounter.inc
        { counter := 5, position := 0, published := [0] }).published = [0] ∧
    (ProgressCounter.inc
        { counter := 5, position := 0, published := [0] }).position = 0 :=
  ⟨(c8_progress_counter_inc
      { counter := 5, position := 0, published := [0] }).1,
   ((c8_progress_counter_inc
      { counter := 5, position := 0, published := [0] }).2.2 (by decide)).1,
   ((c8_progress_counter_inc
      { counter := 5, position := 0, published := [0] }).2.2 (by decide)).2⟩

/-! ## Temp-file discipline (`sqlite.rs`) -/

/-- A file system as the set of existing paths. -/
def FileSys := String → Bool

/-- `std::fs::remove_file` (ignoring its result, as the callers do). -/
def removeFile (fs : FileSys) (p : String) : FileSys :=
  fun q => if q = p then false else fs q

/-- Creating a file (SQLite's `Connection::open` on a fresh path). -/
def createFile (fs : FileSys) (p : String) : FileSys :=
  fun q => if q = p then true else fs q

/-- `TempFileGuard` (`sqlite.rs`): holds the temp path until the file is
promoted. -/
structure TempFileGuard where
  path : Option String

/-- Outcome of `TempFileGuard::promote`. -/
inductive PromoteOutcome where
  | renamed
  | renameFailed
  | panicked
  deriving DecidableEq, Repr

/-- `TempFileGuard::promote` (`sqlite.rs`): `self.path.take()` (panicking
if the guard is empty), then `std::fs::rename` to the new name. The
rename fails when the source is missing or on an injected fault
(`renameFails`); either way the guard keeps `None`, so a later drop
removes nothing. -/
def TempFileGuard.promote (g : TempFileGuard) (new_name : String)
    (renameFails : Bool) (fs : FileSys) :
    TempFileGuard × FileSys × PromoteOutcome :=
  match g.path with
  | none => (⟨none⟩, fs, .panicked)
  | some p =>
    if renameFails ∨ fs p = false then (⟨none⟩, fs, .renameFailed)
    else (⟨none⟩, createFile (removeFile fs p) new_name, .renamed)

/-- `TempFileGuard`'s `Drop` impl: remove the temp file if it was not
promoted. -/
def TempFileGuard.dropGuard (g : TempFileGuard) (fs : FileSys) : FileSys :=
  match g.path with
  | some p => removeFile fs p
  | none => fs

/-- How the AppendVec iteration inside `insert_all` ends: cleanly, with
an error (`?` early-return), or by a panic unwinding through
`insert_all`. -/
inductive IngestOutcome where
  | success
  | failure
  | panic
  deriving DecidableEq, Repr

/-- How the whole indexer run ends. -/
inductive RunOutcome where
  | ok
  | err
  | panicked
  deriving DecidableEq, Repr

/-- `SqliteIndexer::new` followed by `insert_all` (`sqlite.rs`): create
the DB at the temp path (after removing a stale temp file); iterate; on
iteration error or panic the indexer is dropped and the guard removes the
temp file; on success the temp file is promoted to `db_path` (a rename
failure is returned as a fatal error). -/
def run_indexer (db_path temp_path : String) (fs0 : FileSys)
    (ingest : IngestOutcome) (renameFails : Bool) : FileSys × RunOutcome :=
  let fs1 := createFile (removeFile fs0 temp_path) temp_path
  let g : TempFileGuard := ⟨some temp_path⟩
  match ingest with
  | .failure => (TempFileGuard.dropGuard g fs1, .err)
  | .panic => (TempFileGuard.dropGuard g fs1, .panicked)
  | .success =>
    match g.promote db_path renameFails fs1 with
    | (g2, fs2, .renamed) => (g2.dropGuard fs2, .ok)
    | (g2, fs2, .renameFailed) => (g2.dropGuard fs2, .err)
    | (g2, fs2, .panicked) => (g2.dropGuard fs2, .panicked)


/-- C4: with a fresh target path, a clean run promotes the temp file —
afterwards the target exists, the temp sibling does not, and the run
reports success; a rename failure is reported as a fatal error; and on
any non-clean end (iteration error or panic before promotion) the temp
file is removed, the target path is never created, and the run does not
report success. -/
theorem c4_sqlite_temp_file_discipline (db_path temp_path : String)
    (fs0 : FileSys) (ingest : IngestOutcome) (renameFails : Bool)
    (hne : temp_path ≠ db_path) (h0 : fs0 db_path = false) :
    (ingest = .success → renameFails = false →
      (run_indexer db_path temp_path fs0 ingest renameFails).1 db_path = true ∧
      (run_indexer db_path temp_path fs0 ingest renameFails).1 temp_path = false ∧
      (run_indexer db_path temp_path fs0 ingest renameFails).2 = .ok) ∧
    (ingest = .success → renameFails = true →
      (run_indexer db_path temp_path fs0 ingest renameFails).2 = .err) ∧
    (ingest ≠ .success →
      (run_indexer db_path temp_path fs0 ingest renameFails).1 temp_path = false ∧
      (run_indexer db_path temp_path fs0 ingest renameFails).1 db_path = false ∧
      (run_indexer db_path temp_path fs0 ingest renameFails).2 ≠ .ok) := by
  have hne' : db_path ≠ temp_path := Ne.symm hne
  refine ⟨?_, ?_, ?_⟩
  · rintro rfl rfl
    simp [run_indexer, TempFileGuard.promote, TempFileGuard.dropGuard,
      createFile, removeFile, hne, hne']
  · rintro rfl rfl
    simp [run_indexer, TempFileGuard.promote, TempFileGuard.dropGuard,
      createFile, removeFile]
  · intro hni
    cases ingest with
    | success => exact absurd rfl hni
    | failure =>
      simp [run_indexer, TempFileGuard.dropGuard, createFile, removeFile,
        hne', h0]
    | panic =>
      simp [run_indexer, TempFileGuard.dropGuard, createFile, removeFile,
        hne', h0]

/-- Closed witness for C4 on an empty file system with target
`db.sqlite3` and temp sibling `_db.sqlite3.tmp`: a clean run creates the
target and leaves no temp file. -/
theorem c4_sqlite_temp_file_discipline_witness :
    (run_indexer "db.sqlite3" "_db.sqlite3.tmp" (fun _ => false)
        .success false).1 "db.sqlite3" = true ∧
    (run_indexer "db.sqlite3" "_db.sqlite3.tmp" (fun _ => false)
        .success false).1 "_db.sqlite3.tmp" = false ∧
    (run_indexer "db.sqlite3" "_db.sqlite3.tmp" (fun _ => false)
        .success false).2 = .ok :=
  (c4_sqlite_temp_file_discipline "db.sqlite3" "_db.sqlite3.tmp"
      (fun _ => false) .success false (by decide) rfl).1 rfl rfl


/-! ## Borsh deserialization of Metaplex metadata (`mpl_metadata.rs`)

Strings are kept as raw byte lists; borsh's UTF-8 validation of `String`
contents is not modelled (all inputs used in theorems are ASCII). -/

/-- Borsh `u8`. -/
def borshU8 : List Nat → Option (Nat × List Nat)
  | [] => none
  | b :: rest => some (b, rest)

/-- Borsh `bool`: one byte that must be 0 or 1. -/
def borshBool (bs : List Nat) : Option (Bool × List Nat) :=
  match bs with
  | [] => none
  | b :: rest =>
    if b = 0 then some (false, rest)
    else if b = 1 then some (true, rest)
    else none

/-- Borsh `u16` (little-endian). -/
def borshU16 (bs : List Nat) : Option (Nat × List Nat) :=
  (takeN bs 2).map (fun p => (leValue p.1, p.2))

/-- Borsh `u32` (little-endian). -/
def borshU32 (bs : List Nat) : Option (Nat × List Nat) :=
  (takeN bs 4).map (fun p => (leValue p.1, p.2))

/-- Borsh `u64` (little-endian). -/
def borshU64 (bs : List Nat) : Option (Nat × List Nat) :=
  (takeN bs 8).map (fun p => (leValue p.1, p.2))

/-- Borsh `Pubkey`: 32 raw bytes. -/
def borshPubkey (bs : List Nat) : Option (Pubkey × List Nat) := takeN bs 32

/-- Borsh `Option<T>`: a one-byte tag 0 (`None`) or 1 (`Some`), any other
tag is an error. -/
def borshOption {α : Type} (f : List Nat → Option (α × List Nat))
    (bs : List Nat) : Option (Option α × List Nat) :=
  match bs with
  | [] => none
  | t :: rest =>
    if t = 0 then some (none, rest)
    else if t = 1 then (f rest).map (fun p => (some p.1, p.2))
    else none

/-- Borsh `String`: a `u32` length followed by that many bytes. -/
def borshString (bs : List Nat) : Option (List Nat × List Nat) := do
  let (len, rest) ← borshU32 bs
  takeN rest len

/-- `n` consecutive borsh values. -/
def borshRepeat {α : Type} (f : List Nat → Option (α × List Nat)) :
    Nat → List Nat → Option (List α × List Nat)
  | 0, bs => some ([], bs)
  | n + 1, bs => do
    let (a, rest) ← f bs
    let (as_, rest2) ← borshRepeat f n rest
    pure (a :: as_, rest2)

/-- Borsh `Vec<T>`: a `u32` count followed by that many elements. -/
def borshVec {α : Type} (f : List Nat → Option (α × List Nat))
    (bs : List Nat) : Option (List α × List Nat) := do
  let (len, rest) ← borshU32 bs
  borshRepeat f len rest

/-- `mpl_metadata::AccountKey`: a borsh enum of ten unit variants. -/
inductive AccountKey where
  | uninitialized
  | editionV1
  | masterEditionV1
  | reservationListV1
  | metadataV1
  | reservationListV2
  | masterEditionV2
  | editionMarker
  | useAuthorityRecord
  | collectionAuthorityRecord
  deriving DecidableEq, Repr

/-- Borsh deserialization of `AccountKey`: a one-byte variant index. -/
def AccountKey.deserialize (bs : List Nat) : Option (AccountKey × List Nat) := do
  let (b, rest) ← borshU8 bs
  match b with
  | 0 => pure (.uninitialized, rest)
  | 1 => pure (.editionV1, rest)
  | 2 => pure (.masterEditionV1, rest)
  | 3 => pure (.reservationListV1, rest)
  | 4 => pure (.metadataV1, rest)
  | 5 => pure (.reservationListV2, rest)
  | 6 => pure (.masterEditionV2, rest)
  | 7 => pure (.editionMarker, rest)
  | 8 => pure (.useAuthorityRecord, rest)
  | 9 => pure (.collectionAuthorityRecord, rest)
  | _ => none

/-- `mpl_metadata::Creator`. -/
structure Creator where
  address : Pubkey
  verified : Bool
  share : Nat
  deriving DecidableEq, Repr

/-- Borsh deserialization of `Creator`. -/
def Creator.deserialize (bs : List Nat) : Option (Creator × List Nat) := do
  let (address, bs) ← borshPubkey bs
  let (verified, bs) ← borshBool bs
  let (share, bs) ← borshU8 bs
  pure (⟨address, verified, share⟩, bs)

/-- `mpl_metadata::Data` (the inner metadata payload). -/
structure MplData where
  name : List Nat
  symbol : List Nat
  uri : List Nat
  seller_fee_basis_points : Nat
  creators : Option (List Creator)
  deriving DecidableEq, Repr

/-- Borsh deserialization of `Data`. -/
def MplData.deserialize (bs : List Nat) : Option (MplData × List Nat) := do
  let (name, bs) ← borshString bs
  let (symbol, bs) ← borshString bs
  let (uri, bs) ← borshString bs
  let (sfbp, bs) ← borshU16 bs
  let (creators, bs) ← borshOption (borshVec Creator.deserialize) bs
  pure (⟨name, symbol, uri, sfbp, creators⟩, bs)

/-- `mpl_metadata::Metadata`. -/
structure Metadata where
  update_authority : Pubkey
  mint : Pubkey
  data : MplData
  primary_sale_happened : Bool
  is_mutable : Bool
  deriving DecidableEq, Repr

/-- Borsh deserialization of `Metadata`. -/
def Metadata.deserialize (bs : List Nat) : Option (Metadata × List Nat) := do
  let (update_authority, bs) ← borshPubkey bs
  let (mint, bs) ← borshPubkey bs
  let (d, bs) ← MplData.deserialize bs
  let (primary_sale_happened, bs) ← borshBool bs
  let (is_mutable, bs) ← borshBool bs
  pure (⟨update_authority, mint, d, primary_sale_happened, is_mutable⟩, bs)

/-- `mpl_metadata::MetadataExt` (the V1.1 extension). -/
structure MetadataExt where
  edition_nonce : Option Nat
  deriving DecidableEq, Repr

/-- Borsh deserialization of `MetadataExt`. -/
def MetadataExt.deserialize (bs : List Nat) : Option (MetadataExt × List Nat) :=
  (borshOption borshU8 bs).map (fun p => (⟨p.1⟩, p.2))

/-- `mpl_metadata::Collection`. -/
structure MplCollection where
  verified : Bool
  key : Pubkey
  deriving DecidableEq, Repr

/-- Borsh deserialization of `Collection`. -/
def MplCollection.deserialize (bs : List Nat) :
    Option (MplCollection × List Nat) := do
  let (verified, bs) ← borshBool bs
  let (key, bs) ← borshPubkey bs
  pure (⟨verified, key⟩, bs)

/-- `mpl_metadata::Uses`. -/
structure Uses where
  use_method : Nat
  remaining : Nat
  total : Nat
  deriving DecidableEq, Repr

/-- Borsh deserialization of `Uses`. -/
def Uses.deserialize (bs : List Nat) : Option (Uses × List Nat) := do
  let (use_method, bs) ← borshU8 bs
  let (remaining, bs) ← borshU64 bs
  let (total, bs) ← borshU64 bs
  pure (⟨use_method, remaining, total⟩, bs)

/-- `mpl_metadata::MetadataExtV1_2` (the V1.2 extension). -/
structure MetadataExtV1_2 where
  token_standard : Option Nat
  collection : Option MplCollection
  uses : Option Uses
  deriving DecidableEq, Repr

/-- Borsh deserialization of `MetadataExtV1_2`. -/
def MetadataExtV1_2.deserialize (bs : List Nat) :
    Option (MetadataExtV1_2 × List Nat) := do
  let (token_standard, bs) ← borshOption borshU8 bs
  let (collection, bs) ← borshOption MplCollection.deserialize bs
  let (uses, bs) ← borshOption Uses.deserialize bs
  pure (⟨token_standard, collection, uses⟩, bs)


/-! ## SQLite worker (`sqlite.rs`) -/

/-- A row of the `account` table. -/
structure AccountRow where
  pubkey : Pubkey
  data_len : Nat
  owner : Pubkey
  lamports : Nat
  executable : Bool
  rent_epoch : Nat
  deriving DecidableEq, Repr

/-- A decoded SPL-token account (`spl_token::state::Account`), as the
fields the worker inserts. -/
structure TokenAccount where
  mint : Pubkey
  owner : Pubkey
  amount : Nat
  delegate : Option Pubkey
  state : Nat
  is_native : Option Nat
  delegated_amount : Nat
  close_authority : Option Pubkey
  deriving DecidableEq, Repr

/-- A decoded SPL-token mint (`spl_token::state::Mint`). -/
structure TokenMint where
  mint_authority : Option Pubkey
  supply : Nat
  decimals : Nat
  is_initialized : Bool
  freeze_authority : Option Pubkey
  deriving DecidableEq, Repr

/-- A decoded SPL-token multisig (`spl_token::state::Multisig`). -/
structure TokenMultisig where
  m : Nat
  n : Nat
  signers : List Pubkey
  deriving DecidableEq, Repr

/-- A row of the `token_account` table. -/
structure TokenAccountRow where
  pubkey : Pubkey
  token : TokenAccount
  deriving DecidableEq, Repr

/-- A row of the `token_mint` table. -/
structure TokenMintRow where
  pubkey : Pubkey
  mint : TokenMint
  deriving DecidableEq, Repr

/-- A row of the `token_multisig` table. -/
structure TokenMultisigRow where
  pubkey : Pubkey
  signer : Pubkey
  m : Nat
  n : Nat
  deriving DecidableEq, Repr

/-- A row of the `token_metadata` table. -/
structure TokenMetadataRow where
  pubkey : Pubkey
  mint : Pubkey
  name : List Nat
  symbol : List Nat
  uri : List Nat
  seller_fee_basis_points : Nat
  primary_sale_happened : Bool
  is_mutable : Bool
  edition_nonce : Option Nat
  collection_verified : Option Bool
  collection_key : Option Pubkey
  deriving DecidableEq, Repr

/-- The five tables created by `SqliteIndexer::create_db`. The schema
declares a primary key on `account`, `token_mint` and `token_account`
(`pubkey`) and on `token_multisig` (`(pubkey, signer)`); `token_metadata`
declares no primary key. -/
structure DB where
  account : List AccountRow
  token_mint : List TokenMintRow
  token_account : List TokenAccountRow
  token_multisig : List TokenMultisigRow
  token_metadata : List TokenMetadataRow
  deriving DecidableEq, Repr

/-- The freshly created, empty database. -/
def DB.empty : DB := ⟨[], [], [], [], []⟩

/-- SQLite `INSERT OR REPLACE` into a table whose primary key is `key`:
any existing row with the new row's key is deleted, then the new row is
inserted. -/
def insertOrReplace {α κ : Type} [DecidableEq κ] (key : α → κ)
    (rows : List α) (new : α) : List α :=
  rows.filter (fun r => key r ≠ key new) ++ [new]

/-- SQLite `INSERT OR REPLACE` into `token_metadata`, which has no
primary key: with no key to conflict on, it behaves as a plain insert. -/
def insertPlain {α : Type} (rows : List α) (new : α) : List α := rows ++ [new]

/-- The abstract SPL-token decoders (`spl_token::state::{Account, Mint,
Multisig}::unpack`); the worker only branches on success or failure. -/
structure TokenDecoders where
  unpackAccount : List Nat → Option TokenAccount
  unpackMint : List Nat → Option TokenMint
  unpackMultisig : List Nat → Option TokenMultisig

/-- Decoders that always fail. -/
def noDecoders : TokenDecoders := ⟨fun _ => none, fun _ => none, fun _ => none⟩

/-- The worker's error channel: the only fallible non-SQL step is the
fatal Metaplex `Metadata` decode (`.map_err(...)?` in
`insert_token_metadata`). -/
inductive WorkerErr where
  | metadataDeserialize
  deriving DecidableEq, Repr

/-- Outcome of one worker step: a normal return carrying the database, a
returned `Err` value, or a Rust panic (an out-of-bounds slice unwinds
instead of returning). -/
inductive WorkerResult where
  | ok (db : DB)
  | error (e : WorkerErr)
  | panic
  deriving DecidableEq, Repr

/-- `spl_token::state::Account::LEN`. -/
def spl_account_len : Nat := 165

/-- `spl_token::state::Mint::LEN`. -/
def spl_mint_len : Nat := 82

/-- `spl_token::state::Multisig::LEN`. -/
def spl_multisig_len : Nat := 355

/-- The `account`-table row the worker binds for a record. -/
def account_row (account : StoredAccountMeta) : AccountRow :=
  { pubkey := account.meta.pubkey
    data_len := account.meta.data_len
    owner := account.account_meta.owner
    lamports := account.account_meta.lamports
    executable := account.account_meta.executable
    rent_epoch := account.account_meta.rent_epoch }

/-- `Worker::insert_account_meta`: `INSERT OR REPLACE` of the generic
account row, keyed on `pubkey`. -/
def Worker.insert_account_meta (db : DB) (account : StoredAccountMeta) : DB :=
  { db with account :=
      insertOrReplace (fun r => r.pubkey) db.account (account_row account) }

/-- `Worker::insert_token_account`. -/
def Worker.insert_token_account (db : DB) (account : StoredAccountMeta)
    (t : TokenAccount) : DB :=
  let row : TokenAccountRow := { pubkey := account.meta.pubkey, token := t }
  { db with token_account :=
      insertOrReplace (fun r => r.pubkey) db.token_account row }

/-- `Worker::insert_token_mint`. -/
def Worker.insert_token_mint (db : DB) (account : StoredAccountMeta)
    (t : TokenMint) : DB :=
  let row : TokenMintRow := { pubkey := account.meta.pubkey, mint := t }
  { db with token_mint :=
      insertOrReplace (fun r => r.pubkey) db.token_mint row }

/-- `Worker::insert_token_multisig` (`sqlite.rs`): one row per signer in
the slice `signers[..n]`, each inserted with `INSERT OR REPLACE` keyed on
`(pubkey, signer)`. `Multisig::unpack` does not validate `n`, and
`signers` is a fixed 11-entry array, so the slice panics when `n` exceeds
the array length; otherwise it is the first `n` signers. -/
def Worker.insert_token_multisig (db : DB) (account : StoredAccountMeta)
    (t : TokenMultisig) : WorkerResult :=
  if t.signers.length < t.n then .panic
  else
    let rows :=
      (t.signers.take t.n).foldl
        (fun rows signer =>
          insertOrReplace (fun r => (r.pubkey, r.signer)) rows
            ⟨account.meta.pubkey, signer, t.m, t.n⟩)
        db.token_multisig
    .ok { db with token_multisig := rows }

/-- `Worker::insert_token` (`sqlite.rs`): dispatch on the account's
`data_len`; decode with the matching SPL-token decoder; a decode failure
is swallowed (`if let Ok(..)`), an unknown length is logged and skipped;
no branch produces an error, though the multisig branch can panic at the
`signers[..n]` slice. -/
def Worker.insert_token (dec : TokenDecoders) (db : DB)
    (account : StoredAccountMeta) : WorkerResult :=
  if account.meta.data_len = spl_account_len then
    match dec.unpackAccount account.data with
    | some t => .ok (Worker.insert_token_account db account t)
    | none => .ok db
  else if account.meta.data_len = spl_mint_len then
    match dec.unpackMint account.data with
    | some t => .ok (Worker.insert_token_mint db account t)
    | none => .ok db
  else if account.meta.data_len = spl_multisig_len then
    match dec.unpackMultisig account.data with
    | some t => Worker.insert_token_multisig db account t
    | none => .ok db
  else .ok db

/-- `Worker::insert_token_metadata_metadata`: build and insert the
`token_metadata` row (the table has no primary key, so this is a plain
insert). -/
def Worker.insert_token_metadata_metadata (db : DB)
    (account : StoredAccountMeta) (meta_v1 : Metadata)
    (meta_v1_1 : Option MetadataExt) (meta_v1_2 : Option MetadataExtV1_2) :
    DB :=
  let collection := meta_v1_2.bind (fun m => m.collection)
  let row : TokenMetadataRow :=
    { pubkey := account.meta.pubkey
      mint := meta_v1.mint
      name := meta_v1.data.name
      symbol := meta_v1.data.symbol
      uri := meta_v1.data.uri
      seller_fee_basis_points := meta_v1.data.seller_fee_basis_points
      primary_sale_happened := meta_v1.primary_sale_happened
      is_mutable := meta_v1.is_mutable
      edition_nonce := meta_v1_1.bind (fun c => c.edition_nonce)
      collection_verified := collection.map (fun c => c.verified)
      collection_key := collection.map (fun c => c.key) }
  { db with token_metadata := insertPlain db.token_metadata row }

/-- `Worker::insert_token_metadata` (`sqlite.rs`): empty data and an
unreadable or non-`MetadataV1` account key are silently skipped, but a
`MetadataV1` record whose `Metadata` body fails to decode is a fatal
error (`.map_err(...)?`); the optional V1.1/V1.2 extensions tolerate
failure (`.ok()`), leaving their columns `NULL`. -/
def Worker.insert_token_metadata (db : DB) (account : StoredAccountMeta) :
    WorkerResult :=
  if account.data.isEmpty then .ok db
  else
    match AccountKey.deserialize account.data with
    | none => .ok db
    | some (key, rest) =>
      match key with
      | .metadataV1 =>
        match Metadata.deserialize rest with
        | none => .error .metadataDeserialize
        | some (meta_v1, rest2) =>
          match MetadataExt.deserialize rest2 with
          | none =>
            .ok (Worker.insert_token_metadata_metadata db account meta_v1
              none none)
          | some (ext1, rest3) =>
            .ok (Worker.insert_token_metadata_metadata db account meta_v1
              (some ext1) ((MetadataExtV1_2.deserialize rest3).map Prod.fst))
      | _ => .ok db

/-- `Worker::insert_account` (`sqlite.rs`): always insert the generic
account row; then, when the owner is the SPL-token program, the token
row; then, when the owner is the Metaplex metadata program, the metadata
row. -/
def Worker.insert_account (dec : TokenDecoders) (db : DB)
    (account : StoredAccountMeta) : WorkerResult :=
  let db1 := Worker.insert_account_meta db account
  match (if account.account_meta.owner = spl_token_id then
          Worker.insert_token dec db1 account
        else .ok db1) with
  | .error e => .error e
  | .panic => .panic
  | .ok db2 =>
    if account.account_meta.owner = mpl_metadata_id then
      Worker.insert_token_metadata db2 account
    else .ok db2

/-- The record loop of `SqliteIndexer::insert_all`: run
`Worker::insert_account` over the stream of account records in order,
stopping at the first error (`?`). -/
def Worker.insert_records (dec : TokenDecoders) (db : DB) :
    List StoredAccountMeta → WorkerResult
  | [] => .ok db
  | r :: rest =>
    match Worker.insert_account dec db r with
    | .error e => .error e
    | .panic => .panic
    | .ok db1 => Worker.insert_records dec db1 rest

/-- `insert_all`'s ingest, started from the freshly created database. -/
def Worker.insert_all_records (dec : TokenDecoders)
    (records : List StoredAccountMeta) : WorkerResult :=
  Worker.insert_records dec DB.empty records


/-- C3 counterexample: an account owned by the Metaplex metadata program
whose data is the single byte `[4]` (`MetadataV1` tag with no body) makes
the ingest fail: `insert_all` returns an error, instead of swallowing the
account-level decode failure. -/
theorem c3_counterexample_metadata_decode_fatal :
    Worker.insert_all_records noDecoders
        [{ meta := { write_version := 0, pubkey := List.replicate 32 9,
                     data_len := 1 }
           account_meta := { lamports := 1, rent_epoch := 0,
                             owner := mpl_metadata_id, executable := false }
           hash := List.replicate 32 0
           data := [4] }] =
      .error .metadataDeserialize := rfl

/-- C3 (amended): SPL-token decode failures are swallowed —
`insert_token` never returns an error value (it panics exactly when the
account has multisig length and the decoded multisig's `n` exceeds its
signer array, the unchecked `signers[..n]` slice) — and for Metaplex
accounts an empty, unreadable or non-`MetadataV1` account key is also
swallowed, but `insert_token_metadata` returns an error exactly when the
account key is `MetadataV1` and the `Metadata` body fails to decode. -/
theorem c3_account_decode_failures (dec : TokenDecoders) (db : DB)
    (account : StoredAccountMeta) :
    (∀ e, Worker.insert_token dec db account ≠ .error e) ∧
    (Worker.insert_token dec db account = .panic ↔
      account.meta.data_len = spl_multisig_len ∧
      ∃ t, dec.unpackMultisig account.data = some t ∧
        t.signers.length < t.n) ∧
    (Worker.insert_token_metadata db account = .error .metadataDeserialize ↔
      ∃ rest, account.data.isEmpty = false ∧
        AccountKey.deserialize account.data = some (.metadataV1, rest) ∧
        Metadata.deserialize rest = none) := by
  refine ⟨?_, ?_, ?_⟩
  · intro e
    unfold Worker.insert_token Worker.insert_token_multisig
    repeat' split
    all_goals simp
  · unfold Worker.insert_token
    by_cases h1 : account.meta.data_len = spl_account_len
    · rw [if_pos h1]
      have hne : ¬(account.meta.data_len = spl_multisig_len) := by
        rw [h1]; decide
      cases dec.unpackAccount account.data <;>
        exact iff_of_false (by simp) (fun hc => hne hc.1)
    · rw [if_neg h1]
      by_cases h2 : account.meta.data_len = spl_mint_len
      · rw [if_pos h2]
        have hne : ¬(account.meta.data_len = spl_multisig_len) := by
          rw [h2]; decide
        cases dec.unpackMint account.data <;>
          exact iff_of_false (by simp) (fun hc => hne hc.1)
      · rw [if_neg h2]
        by_cases h3 : account.meta.data_len = spl_multisig_len
        · rw [if_pos h3]
          cases hu : dec.unpackMultisig account.data with
          | none =>
            refine iff_of_false (by simp) ?_
            rintro ⟨-, t', ht', -⟩
            exact absurd ht' (by simp)
          | some t =>
            dsimp only
            unfold Worker.insert_token_multisig
            by_cases hl : t.signers.length < t.n
            · rw [if_pos hl]
              exact iff_of_true rfl ⟨h3, t, rfl, hl⟩
            · rw [if_neg hl]
              refine iff_of_false (by simp) ?_
              rintro ⟨-, t', ht', hl'⟩
              cases Option.some.inj ht'
              exact hl hl'
        · rw [if_neg h3]
          exact iff_of_false (by simp) (fun hc => h3 hc.1)
  · unfold Worker.insert_token_metadata
    by_cases he : account.data.isEmpty
    · simp [he]
    · rw [if_neg he]
      rw [Bool.not_eq_true] at he
      cases hk : AccountKey.deserialize account.data with
      | none => simp [hk]
      | some kr =>
        obtain ⟨key, rest⟩ := kr
        cases key with
        | metadataV1 =>
          cases hm : Metadata.deserialize rest with
          | none =>
            dsimp only
            rw [hm]
            exact iff_of_true rfl ⟨rest, he, rfl, hm⟩
          | some p =>
            obtain ⟨mv, rest2⟩ := p
            cases hx : MetadataExt.deserialize rest2 <;> simp [hk, hm, hx]
        | uninitialized => simp [hk]
        | editionV1 => simp [hk]
        | masterEditionV1 => simp [hk]
        | reservationListV1 => simp [hk]
        | reservationListV2 => simp [hk]
        | masterEditionV2 => simp [hk]
        | editionMarker => simp [hk]
        | useAuthorityRecord => simp [hk]
        | collectionAuthorityRecord => simp [hk]

/-- Closed witnesses for C3: a token-program account of length
`Account::LEN` whose decode fails yields no error from `insert_token`,
and a 355-byte account whose multisig decodes with `n = 12` over an
11-entry signer array makes `insert_token` panic at the `signers[..n]`
slice. -/
theorem c3_account_decode_failures_witness :
    Worker.insert_token noDecoders DB.empty
        { meta := { write_version := 0, pubkey := List.replicate 32 8,
                    data_len := 165 }
          account_meta := { lamports := 1, rent_epoch := 0,
                            owner := spl_token_id, executable := false }
          hash := List.replicate 32 0
          data := [1, 2, 3] } ≠ .error .metadataDeserialize ∧
    Worker.insert_token
        ⟨fun _ => none, fun _ => none,
         fun _ => some ⟨1, 12, List.replicate 11 (List.replicate 32 0)⟩⟩
        DB.empty
        { meta := { write_version := 0, pubkey := List.replicate 32 8,
                    data_len := 355 }
          account_meta := { lamports := 1, rent_epoch := 0,
                            owner := spl_token_id, executable := false }
          hash := List.replicate 32 0
          data := List.replicate 355 0 } = .panic :=
  ⟨(c3_account_decode_failures noDecoders DB.empty
      { meta := { write_version := 0, pubkey := List.replicate 32 8,
                  data_len := 165 }
        account_meta := { lamports := 1, rent_epoch := 0,
                          owner := spl_token_id, executable := false }
        hash := List.replicate 32 0
        data := [1, 2, 3] }).1 .metadataDeserialize,
   (c3_account_decode_failures
      ⟨fun _ => none, fun _ => none,
       fun _ => some ⟨1, 12, List.replicate 11 (List.replicate 32 0)⟩⟩
      DB.empty
      { meta := { write_version := 0, pubkey := List.replicate 32 8,
                  data_len := 355 }
        account_meta := { lamports := 1, rent_epoch := 0,
                          owner := spl_token_id, executable := false }
        hash := List.replicate 32 0
        data := List.replicate 355 0 }).2.1.mpr
    ⟨rfl, ⟨1, 12, List.replicate 11 (List.replicate 32 0)⟩, rfl, by decide⟩⟩


/-! ## Keyed-table invariants (C10) -/

theorem keys_nodup_insertOrReplace {α κ : Type} [DecidableEq κ]
    (key : α → κ) (rows : List α) (new : α)
    (h : (rows.map key).Nodup) :
    ((insertOrReplace key rows new).map key).Nodup := by
  unfold insertOrReplace
  rw [List.map_append]
  rw [List.nodup_append]
  refine ⟨?_, List.nodup_singleton _, ?_⟩
  · exact ((List.filter_sublist rows).map key).nodup h
  · intro x hx
    simp only [List.mem_map, List.mem_filter, decide_eq_true_eq] at hx
    obtain ⟨r, ⟨_, hr⟩, rfl⟩ := hx
    simp only [List.map_cons, List.map_nil, List.mem_singleton]
    exact hr

theorem find?_insertOrReplace {α κ : Type} [DecidableEq κ]
    (key : α → κ) (rows : List α) (new : α) (k : κ) :
    (insertOrReplace key rows new).find? (fun r => key r = k) =
      if key new = k then some new
      else rows.find? (fun r => key r = k) := by
  induction rows with
  | nil =>
    by_cases h : key new = k <;>
      simp [insertOrReplace, List.find?, h]
  | cons r rest ih =>
    unfold insertOrReplace at ih ⊢
    by_cases hr : key r = key new
    · rw [List.filter_cons_of_neg (by simpa using hr), ih]
      by_cases hk : key new = k
      · simp [hk]
      · have hrk : ¬(key r = k) := by
          rw [hr]
          exact hk
        simp [hk, List.find?_cons, hrk]
    · rw [List.filter_cons_of_pos (by simpa using hr), List.cons_append]
      by_cases hrk : key r = k
      · have hk : ¬(key new = k) := fun hcon => hr (hrk.trans hcon.symm)
        simp [hk, List.find?_cons, hrk]
      · by_cases hk : key new = k
        · simp [hk, List.find?_cons, hrk, ih]
        · have hpq : (fun a => !decide (key a = key new) && decide (key a = k)) =
              (fun r => decide (key r = k)) := by
            funext a
            by_cases h1 : key a = k
            · have h2 : ¬(k = key new) := fun hcon => hk hcon.symm
              simp [h1, h2]
            · simp [h1]
          simp [hk, List.find?_cons, hrk, ih, hpq]

theorem keys_nodup_foldl_insertOrReplace {α β κ : Type} [DecidableEq κ]
    (key : α → κ) (f : β → α) :
    ∀ (xs : List β) (rows0 : List α), (rows0.map key).Nodup →
      ((xs.foldl (fun rows x => insertOrReplace key rows (f x)) rows0).map
          key).Nodup := by
  intro xs
  induction xs with
  | nil => intro rows0 h; exact h
  | cons x rest ih =>
    intro rows0 h
    exact ih _ (keys_nodup_insertOrReplace key rows0 (f x) h)


theorem insert_token_effects {dec : TokenDecoders} {db db2 : DB}
    {account : StoredAccountMeta}
    (h : Worker.insert_token dec db account = .ok db2) :
    db2.account = db.account ∧
    ((db.token_mint.map (fun r => r.pubkey)).Nodup →
      (db2.token_mint.map (fun r => r.pubkey)).Nodup) ∧
    ((db.token_account.map (fun r => r.pubkey)).Nodup →
      (db2.token_account.map (fun r => r.pubkey)).Nodup) ∧
    ((db.token_multisig.map (fun r => (r.pubkey, r.signer))).Nodup →
      (db2.token_multisig.map (fun r => (r.pubkey, r.signer))).Nodup) := by
  unfold Worker.insert_token at h
  split at h
  · cases hu : dec.unpackAccount account.data <;> rw [hu] at h <;>
      cases h
    · exact ⟨rfl, fun x => x, fun x => x, fun x => x⟩
    · refine ⟨rfl, fun x => x, ?_, fun x => x⟩
      intro hx
      exact keys_nodup_insertOrReplace _ _ _ hx
  · split at h
    · cases hu : dec.unpackMint account.data <;> rw [hu] at h <;> cases h
      · exact ⟨rfl, fun x => x, fun x => x, fun x => x⟩
      · refine ⟨rfl, ?_, fun x => x, fun x => x⟩
        intro hx
        exact keys_nodup_insertOrReplace _ _ _ hx
    · split at h
      · cases hu : dec.unpackMultisig account.data with
        | none =>
          rw [hu] at h
          cases h
          exact ⟨rfl, fun x => x, fun x => x, fun x => x⟩
        | some t =>
          rw [hu] at h
          dsimp only at h
          unfold Worker.insert_token_multisig at h
          split at h
          · exact absurd h (by simp)
          · dsimp only at h
            cases h
            refine ⟨rfl, fun x => x, fun x => x, ?_⟩
            intro hx
            exact keys_nodup_foldl_insertOrReplace _ _ _ _ hx
      · cases h
        exact ⟨rfl, fun x => x, fun x => x, fun x => x⟩

theorem insert_token_metadata_effects {db db2 : DB}
    {account : StoredAccountMeta}
    (h : Worker.insert_token_metadata db account = .ok db2) :
    db2.account = db.account ∧ db2.token_mint = db.token_mint ∧
    db2.token_account = db.token_account ∧
    db2.token_multisig = db.token_multisig := by
  unfold Worker.insert_token_metadata at h
  split at h
  · cases h
    exact ⟨rfl, rfl, rfl, rfl⟩
  · split at h
    · cases h
      exact ⟨rfl, rfl, rfl, rfl⟩
    · rename_i key rest heq
      split at h
      · split at h
        · exact absurd h (by simp)
        · split at h <;> cases h <;>
            exact ⟨rfl, rfl, rfl, rfl⟩
      · cases h
        exact ⟨rfl, rfl, rfl, rfl⟩

theorem insert_account_effects {dec : TokenDecoders} {db db2 : DB}
    {account : StoredAccountMeta}
    (h : Worker.insert_account dec db account = .ok db2) :
    db2.account =
      insertOrReplace (fun r => r.pubkey) db.account (account_row account) ∧
    ((db.token_mint.map (fun r => r.pubkey)).Nodup →
      (db2.token_mint.map (fun r => r.pubkey)).Nodup) ∧
    ((db.token_account.map (fun r => r.pubkey)).Nodup →
      (db2.token_account.map (fun r => r.pubkey)).Nodup) ∧
    ((db.token_multisig.map (fun r => (r.pubkey, r.signer))).Nodup →
      (db2.token_multisig.map (fun r => (r.pubkey, r.signer))).Nodup) := by
  unfold Worker.insert_account at h
  dsimp only at h
  by_cases hspl : account.account_meta.owner = spl_token_id
  · rw [if_pos hspl] at h
    cases ht : Worker.insert_token dec (Worker.insert_account_meta db account)
        account with
    | error e =>
      rw [ht] at h
      exact absurd h (by simp)
    | panic =>
      rw [ht] at h
      exact absurd h (by simp)
    | ok dbt =>
      rw [ht] at h
      dsimp only at h
      obtain ⟨ea, em, eta, ems⟩ := insert_token_effects ht
      by_cases hmpl : account.account_meta.owner = mpl_metadata_id
      · rw [if_pos hmpl] at h
        obtain ⟨fa, fm, fta, fms⟩ := insert_token_metadata_effects h
        refine ⟨?_, ?_, ?_, ?_⟩
        · rw [fa, ea]; rfl
        · intro hx
          rw [fm]
          exact em hx
        · intro hx
          rw [fta]
          exact eta hx
        · intro hx
          rw [fms]
          exact ems hx
      · rw [if_neg hmpl] at h
        cases h
        exact ⟨by rw [ea]; rfl, em, eta, ems⟩
  · rw [if_neg hspl] at h
    dsimp only at h
    by_cases hmpl : account.account_meta.owner = mpl_metadata_id
    · rw [if_pos hmpl] at h
      obtain ⟨fa, fm, fta, fms⟩ := insert_token_metadata_effects h
      refine ⟨by rw [fa]; rfl, ?_, ?_, ?_⟩
      · intro hx
        rw [fm]
        exact hx
      · intro hx
        rw [fta]
        exact hx
      · intro hx
        rw [fms]
        exact hx
    · rw [if_neg hmpl] at h
      cases h
      exact ⟨rfl, fun x => x, fun x => x, fun x => x⟩


theorem find?_append_some {α : Type} {p : α → Bool} {l₁ l₂ : List α} {a : α}
    (h : l₁.find? p = some a) : (l₁ ++ l₂).find? p = some a := by
  induction l₁ with
  | nil => simp at h
  | cons x xs ih =>
    rw [List.cons_append]
    rw [List.find?_cons] at h ⊢
    cases hx : p x with
    | true => rw [hx] at h; simpa [hx] using h
    | false => rw [hx] at h; simpa [hx] using ih h

theorem find?_append_none {α : Type} {p : α → Bool} {l₁ l₂ : List α}
    (h : l₁.find? p = none) : (l₁ ++ l₂).find? p = l₂.find? p := by
  induction l₁ with
  | nil => rfl
  | cons x xs ih =>
    rw [List.cons_append]
    rw [List.find?_cons] at h ⊢
    cases hx : p x with
    | true => rw [hx] at h; simp at h
    | false => rw [hx] at h; simpa [hx] using ih h

theorem insert_records_nodup {dec : TokenDecoders} :
    ∀ (records : List StoredAccountMeta) (db0 db : DB),
      Worker.insert_records dec db0 records = .ok db →
      ((db0.account.map (fun r => r.pubkey)).Nodup →
        (db.account.map (fun r => r.pubkey)).Nodup) ∧
      ((db0.token_mint.map (fun r => r.pubkey)).Nodup →
        (db.token_mint.map (fun r => r.pubkey)).Nodup) ∧
      ((db0.token_account.map (fun r => r.pubkey)).Nodup →
        (db.token_account.map (fun r => r.pubkey)).Nodup) ∧
      ((db0.token_multisig.map (fun r => (r.pubkey, r.signer))).Nodup →
        (db.token_multisig.map (fun r => (r.pubkey, r.signer))).Nodup) := by
  intro records
  induction records with
  | nil =>
    intro db0 db h
    cases h
    exact ⟨fun x => x, fun x => x, fun x => x, fun x => x⟩
  | cons r rest ih =>
    intro db0 db h
    unfold Worker.insert_records at h
    cases ha : Worker.insert_account dec db0 r with
    | error e =>
      rw [ha] at h
      exact absurd h (by simp)
    | panic =>
      rw [ha] at h
      exact absurd h (by simp)
    | ok db1 =>
      rw [ha] at h
      dsimp only at h
      obtain ⟨ea, em, eta, ems⟩ := insert_account_effects ha
      obtain ⟨ga, gm, gta, gms⟩ := ih db1 db h
      refine ⟨?_, fun x => gm (em x), fun x => gta (eta x),
        fun x => gms (ems x)⟩
      intro hx
      refine ga ?_
      rw [ea]
      exact keys_nodup_insertOrReplace _ _ _ hx

theorem insert_records_account_last_wins {dec : TokenDecoders} :
    ∀ (records : List StoredAccountMeta) (db0 db : DB) (k : Pubkey),
      Worker.insert_records dec db0 records = .ok db →
      db.account.find? (fun r => r.pubkey = k) =
        match records.reverse.find? (fun rec => rec.meta.pubkey = k) with
        | some rec => some (account_row rec)
        | none => db0.account.find? (fun r => r.pubkey = k) := by
  intro records
  induction records with
  | nil =>
    intro db0 db k h
    cases h
    rfl
  | cons r rest ih =>
    intro db0 db k h
    unfold Worker.insert_records at h
    cases ha : Worker.insert_account dec db0 r with
    | error e =>
      rw [ha] at h
      exact absurd h (by simp)
    | panic =>
      rw [ha] at h
      exact absurd h (by simp)
    | ok db1 =>
      rw [ha] at h
      dsimp only at h
      have e1 := (insert_account_effects ha).1
      have hfind : db1.account.find? (fun r => r.pubkey = k) =
          if r.meta.pubkey = k then some (account_row r)
          else db0.account.find? (fun r => r.pubkey = k) := by
        rw [e1]
        exact find?_insertOrReplace (fun r => r.pubkey) db0.account
          (account_row r) k
      rw [List.reverse_cons]
      cases hf : rest.reverse.find? (fun rec => rec.meta.pubkey = k) with
      | some rec =>
        rw [find?_append_some hf]
        have := ih db1 db k h
        rw [hf] at this
        exact this
      | none =>
        rw [find?_append_none hf]
        have := ih db1 db k h
        rw [hf] at this
        rw [this, hfind]
        by_cases hr : r.meta.pubkey = k
        · simp [List.find?_cons, hr]
        · simp [List.find?_cons, hr]

/-- C10 (amended): every row insertion uses `INSERT OR REPLACE`; on the
four tables that declare a primary key (`account`, `token_mint`,
`token_account` on `pubkey`; `token_multisig` on `(pubkey, signer)`) a
successful ingest leaves at most one row per key, the `account` row for
a key holding the field values of the last record with that key in
iteration order, and duplicate pubkeys never make the ingest fail; the
`token_metadata` table declares no primary key, so its `INSERT OR
REPLACE` behaves as a plain insert and duplicate rows can accumulate. -/
theorem c10_insert_or_replace_keyed (dec : TokenDecoders)
    (records : List StoredAccountMeta) (db : DB)
    (h : Worker.insert_all_records dec records = .ok db) :
    (db.account.map (fun r => r.pubkey)).Nodup ∧
    (db.token_mint.map (fun r => r.pubkey)).Nodup ∧
    (db.token_account.map (fun r => r.pubkey)).Nodup ∧
    (db.token_multisig.map (fun r => (r.pubkey, r.signer))).Nodup ∧
    ∀ k, db.account.find? (fun r => r.pubkey = k) =
      (records.reverse.find?
          (fun rec => rec.meta.pubkey = k)).map account_row := by
  unfold Worker.insert_all_records at h
  obtain ⟨ga, gm, gta, gms⟩ := insert_records_nodup records DB.empty db h
  refine ⟨ga List.nodup_nil, gm List.nodup_nil, gta List.nodup_nil,
    gms List.nodup_nil, ?_⟩
  intro k
  have := insert_records_account_last_wins records DB.empty db k h
  rw [this]
  cases records.reverse.find? (fun rec => rec.meta.pubkey = k) <;> rfl

/-- Closed witness for the C10 theorem: ingesting two records that share
a pubkey leaves exactly one `account` row, holding the second record's
lamports. -/
theorem c10_insert_or_replace_keyed_witness :
    ((DB.mk
        [{ pubkey := List.replicate 32 4, data_len := 0,
           owner := List.replicate 32 0, lamports := 2,
           executable := false, rent_epoch := 0 }]
        [] [] [] []).account.map (fun r => r.pubkey)).Nodup ∧
    (DB.mk
        [{ pubkey := List.replicate 32 4, data_len := 0,
           owner := List.replicate 32 0, lamports := 2,
           executable := false, rent_epoch := 0 }]
        [] [] [] []).account.find?
        (fun r => r.pubkey = List.replicate 32 4) =
      some { pubkey := List.replicate 32 4, data_len := 0,
             owner := List.replicate 32 0, lamports := 2,
             executable := false, rent_epoch := 0 } := by
  constructor
  · exact (c10_insert_or_replace_keyed noDecoders
      [{ meta := { write_version := 0, pubkey := List.replicate 32 4,
                   data_len := 0 }
         account_meta := { lamports := 1, rent_epoch := 0,
                           owner := List.replicate 32 0,
                           executable := false }
         hash := List.replicate 32 0
         data := [] },
       { meta := { write_version := 1, pubkey := List.replicate 32 4,
                   data_len := 0 }
         account_meta := { lamports := 2, rent_epoch := 0,
                           owner := List.replicate 32 0,
                           executable := false }
         hash := List.replicate 32 0
         data := [] }] _ rfl).1
  · have hlast := (c10_insert_or_replace_keyed noDecoders
      [{ meta := { write_version := 0, pubkey := List.replicate 32 4,
                   data_len := 0 }
         account_meta := { lamports := 1, rent_epoch := 0,
                           owner := List.replicate 32 0,
                           executable := false }
         hash := List.replicate 32 0
         data := [] },
       { meta := { write_version := 1, pubkey := List.replicate 32 4,
                   data_len := 0 }
         account_meta := { lamports := 2, rent_epoch := 0,
                           owner := List.replicate 32 0,
                           executable := false }
         hash := List.replicate 32 0
         data := [] }] _ rfl).2.2.2.2 (List.replicate 32 4)
    exact hlast.trans (by rfl)

/-- C10 counterexample: the `token_metadata` table has no primary key, so
ingesting two identical Metaplex metadata records succeeds and leaves two
`token_metadata` rows with the same pubkey — not at most one row per
key. -/
theorem c10_counterexample_token_metadata_duplicates :
    Worker.insert_all_records noDecoders
        [{ meta := { write_version := 0, pubkey := List.replicate 32 5,
                     data_len := 82 }
           account_meta := { lamports := 1, rent_epoch := 0,
                             owner := mpl_metadata_id, executable := false }
           hash := List.replicate 32 0
           data := [4] ++ List.replicate 32 0 ++ List.replicate 32 0 ++
             [0, 0, 0, 0] ++ [0, 0, 0, 0] ++ [0, 0, 0, 0] ++ [0, 0] ++
             [0] ++ [0] ++ [0] },
         { meta := { write_version := 0, pubkey := List.replicate 32 5,
                     data_len := 82 }
           account_meta := { lamports := 1, rent_epoch := 0,
                             owner := mpl_metadata_id, executable := false }
           hash := List.replicate 32 0
           data := [4] ++ List.replicate 32 0 ++ List.replicate 32 0 ++
             [0, 0, 0, 0] ++ [0, 0, 0, 0] ++ [0, 0, 0, 0] ++ [0, 0] ++
             [0] ++ [0] ++ [0] }] =
      .ok (DB.mk
        [{ pubkey := List.replicate 32 5, data_len := 82,
           owner := mpl_metadata_id, lamports := 1, executable := false,
           rent_epoch := 0 }]
        [] [] []
        [{ pubkey := List.replicate 32 5, mint := List.replicate 32 0,
           name := [], symbol := [], uri := [],
           seller_fee_basis_points := 0, primary_sale_happened := false,
           is_mutable := false, edition_nonce := none,
           collection_verified := none, collection_key := none },
         { pubkey := List.replicate 32 5, mint := List.replicate 32 0,
           name := [], symbol := [], uri := [],
           seller_fee_basis_points := 0, primary_sale_happened := false,
           is_mutable := false, edition_nonce := none,
           collection_verified := none, collection_key := none }]) ∧
    (DB.mk
        [{ pubkey := List.replicate 32 5, data_len := 82,
           owner := mpl_metadata_id, lamports := 1, executable := false,
           rent_epoch := 0 }]
        [] [] []
        [{ pubkey := List.replicate 32 5, mint := List.replicate 32 0,
           name := [], symbol := [], uri := [],
           seller_fee_basis_points := 0, primary_sale_happened := false,
           is_mutable := false, edition_nonce := none,
           collection_verified := none, collection_key := none },
         { pubkey := List.replicate 32 5, mint := List.replicate 32 0,
           name := [], symbol := [], uri := [],
           seller_fee_basis_points := 0, primary_sale_happened := false,
           is_mutable := false, edition_nonce := none,
           collection_verified := none, collection_key := none }]
      ).token_metadata.map (fun r => r.pubkey) =
      [List.replicate 32 5, List.replicate 32 5] := by
  exact ⟨rfl, rfl⟩

end SnapshotEtl
